import Mathlib

/-!
Shallow embedding of the GasGuru batching core: the data model
(`BatchTransaction`, analytics counters), the Shardeum network-client
helpers (`estimateBatchGasSavings`), the batching service
(`addToBatch`, `optimizeBatch`, `executeImmediateTransaction`,
`executeBatch`, `processAutoBatching`, `updateAnalytics`) and the two
HTTP route handlers whose behaviour the claims mention
(`POST /api/batch`, `POST /api/shardeum`).

Conventions of the embedding:
* The Postgres store of `batched_transactions` rows is a `List
  BatchTransaction` kept in insertion (= creation-time) order; a row
  update (`UPDATE ... WHERE batch_id = ...`) is a `List.map` that
  rewrites the matching rows (`updRows`).
* Amounts are the arbitrary-precision integers the decimal strings of
  the source denote (`BigInt` in the source); gas values are `Nat`.
* JavaScript numbers are IEEE-754 doubles.  Integer arithmetic below
  `2^53` is exact in binary64 and embedded as exact integers; the
  savings estimator's product with `0.7` and its percentage division
  and multiplication, where the double rounding is observable, are
  embedded through exact round-to-nearest-even at a 53-bit significand
  (`fl64`, `jsFloorMul07`).
* Network and signer calls are suspension points: their outcomes enter
  as explicit parameters (`Except` values / oracle functions), so every
  reachable outcome of the source is an instantiation of the model.
* Wall-clock values (`NOW()`, `Date.now()`) enter as a `now : Nat`
  parameter; the mock transaction hashes drawn from `Math.random()` in
  `executeBatch` enter as a generator `gen : Nat → String` indexed by
  loop iteration, and the fallibility of the per-transaction record
  update inside the `executeBatch` loop (the only statement of that
  `try` block that can throw) as an oracle `updOk : Nat → Except String
  Unit`.
-/

/-- Status enum of a queued transaction (column `status` of
`batched_transactions`). -/
inductive TxStatus where
  | pending
  | scheduled
  | executing
  | completed
  | failed
deriving DecidableEq, Repr

/-- One row of `batched_transactions` (interface `BatchTransaction` of
`batching-service`). -/
structure BatchTransaction where
  batchId : String
  userAddress : String
  toAddress : String
  /-- stored as a decimal string in the source; embedded as the integer
  it denotes (`BigInt(tx.amount)` wherever the source consumes it). -/
  amount : Nat
  tokenAddress : Option String
  gasEstimate : Option Nat
  status : TxStatus
  scheduledFor : Option Nat
  createdAt : Nat
  executedAt : Option Nat
  txHash : Option String
  errorMessage : Option String
deriving DecidableEq, Repr

/-- Row of `gas_analytics` for the one scope (`dapp_id = 'default'`)
the execution paths write. -/
structure GasAnalytics where
  totalGasSaved : Nat
  totalBatches : Nat
  totalTransactions : Nat
  averageBatchSize : ℚ
deriving DecidableEq

/-- Recurrence options of `BatchConfig.executionFrequency`. -/
inductive ExecutionFrequency where
  | immediate
  | hourly
  | daily
  | weekly
deriving DecidableEq, Repr

/-- Configuration handed to the auto-batch processor (interface
`BatchConfig`). -/
structure BatchConfig where
  dappId : String
  maxBatchSize : Nat
  executionFrequency : ExecutionFrequency
  minTransactionCount : Nat
  maxWaitTime : Nat
deriving DecidableEq, Repr

/-- Result object of the execution entry points (`success`, optional
`txHash`, `gasUsed`, `error`). -/
structure ExecResult where
  success : Bool
  txHash : Option String
  gasUsed : Option Nat
  error : Option String
deriving DecidableEq, Repr

/-! ### Shardeum network client (`estimateBatchGasSavings`) -/

/-- JSON-RPC transaction object (`TransactionObject` of `shardeum.ts`).
Only the shape matters to the claims; gas estimation for one object is
a network call and enters as an oracle. -/
structure TransactionObject where
  fromAddress : String
  toAddr : Option String
  value : Option String
deriving DecidableEq, Repr

/-! ### Binary64 arithmetic of the savings estimator -/

/-- Floor of log₂ with explicit fuel; the number itself is always
enough fuel. -/
def natLog2Fuel : Nat → Nat → Nat
  | 0, _ => 0
  | fuel + 1, n => if 2 ≤ n then natLog2Fuel fuel (n / 2) + 1 else 0

/-- Floor of log₂ of a positive natural (`0` maps to `0`). -/
def natLog2 (n : Nat) : Nat := natLog2Fuel n n

/-- Round the quotient `P / D` to the nearest integer, ties to
even. -/
def rneDiv (P D : Nat) : Nat :=
  let q := P / D
  let r := P % D
  if 2 * r < D then q
  else if D < 2 * r then q + 1
  else if q % 2 = 0 then q else q + 1

/-- Does `2^e ≤ p / d` hold?  Integer arithmetic only. -/
def pow2Le (d p : ℕ) (e : ℤ) : Bool :=
  match e with
  | Int.ofNat k => decide (d * 2 ^ k ≤ p)
  | Int.negSucc k => decide (d ≤ p * 2 ^ (k + 1))

/-- Binade exponent `⌊log₂ (p / d)⌋` of a positive rational given by
numerator and denominator: the first guess from the bit lengths is off
by at most one and is fixed by direct comparison. -/
def qexpPD (p d : ℕ) : ℤ :=
  let e0 : ℤ := (natLog2 p : ℤ) - (natLog2 d : ℤ)
  if pow2Le d p (e0 + 1) then e0 + 1
  else if pow2Le d p e0 then e0
  else e0 - 1

/-- Binary64 (IEEE-754 double) rounding of a rational: round to
nearest, ties to even, 53-bit significand.  Covers the normal range,
which every number of the modelled computation inhabits; `0` maps to
`0`. -/
def fl64 (q : ℚ) : ℚ :=
  if q = 0 then 0
  else
    let p := q.num.natAbs
    let d := q.den
    let e : ℤ := qexpPD p d
    let n : ℕ :=
      match 52 - e with
      | Int.ofNat k => rneDiv (p * 2 ^ k) d
      | Int.negSucc k => rneDiv p (d * 2 ^ (k + 1))
    let r : ℚ := (Nat.cast n : ℚ) * (2 : ℚ) ^ (e - 52)
    if q < 0 then -r else r

/-- Significand of the binary64 double nearest `0.7`; the double's
value is `js07num / 2^53 =
0.6999999999999999555910790149937383830547332763671875`, slightly
below `7/10`. -/
def js07num : Nat := 6305039478318694

/-- `Math.floor(S * 0.7)` computed in binary64 for a natural `S` (the
gas sum; naturals below `2^53` are exactly representable): this is
`⌊fl64 ((S : ℚ) * (js07num / 2^53 : ℚ))⌋` restated on integers so the
kernel can evaluate it.  The exact product is `P / 2^53` with
`P = S * js07num`; its binade exponent is `natLog2 P - 53`, so the
53-bit significand is `P / 2^(natLog2 P - 52)` rounded to nearest,
ties to even, and the floor rescales the rounded significand.  A
product below `1` (`P < 2^53`) is exactly representable and floors to
`0`. -/
def jsFloorMul07 (S : Nat) : Nat :=
  let P := S * js07num
  let L := natLog2 P
  if L ≤ 52 then 0
  else
    let n := rneDiv P (2 ^ (L - 52))
    if 105 ≤ L then n * 2 ^ (L - 105) else n / 2 ^ (105 - L)

/-- Return shape of `ShardeumAPI.estimateBatchGasSavings`.  The source
returns `batchGas`/`totalSavings` hex-encoded; the embedding keeps the
numbers themselves.  `totalSavings` is an `Int`: the source computes
`totalIndividualGas - estimatedBatchGas` on JS numbers, which goes
negative for small sums. -/
structure BatchSavingsResult where
  individualGas : List Nat
  batchGas : Nat
  totalSavings : Int
  savingsPercentage : ℚ
deriving DecidableEq

/-- `ShardeumAPI.estimateBatchGasSavings`: estimates each transaction
individually (oracle `estimateGas`), sums them (exact in binary64
below `2^53`), and computes the synthetic batch gas
`Math.floor(totalIndividualGas * 0.7) + 21000` — the floor of the
binary64 product, `jsFloorMul07` — the savings `total - batchGas`
(exact integer subtraction in binary64), and the percentage
`(savings / totalIndividualGas) * 100`, a binary64 division followed
by a binary64 multiplication. -/
def estimateBatchGasSavings (estimateGas : TransactionObject → Nat)
    (transactions : List TransactionObject) : BatchSavingsResult :=
  let individualEstimates := transactions.map estimateGas
  let totalIndividualGas := individualEstimates.sum
  let batchOverhead := 21000
  let estimatedBatchGas := jsFloorMul07 totalIndividualGas + batchOverhead
  let savings : Int := (totalIndividualGas : Int) - (estimatedBatchGas : Int)
  { individualGas := individualEstimates
    batchGas := estimatedBatchGas
    totalSavings := savings
    savingsPercentage :=
      fl64 (fl64 ((savings : ℚ) / (totalIndividualGas : ℚ)) * 100) }

/-- Response of `POST /api/shardeum`. -/
structure ShardeumPostOut where
  status : Nat
  success : Bool
  data : Option BatchSavingsResult
deriving DecidableEq

/-- Handler of `POST /api/shardeum`: rejects with 400 only when the
`transactions` field is missing or not an array (`none` here); any
array — including the empty one — is passed to
`estimateBatchGasSavings`. -/
def postShardeum (estimateGas : TransactionObject → Nat)
    (transactions : Option (List TransactionObject)) : ShardeumPostOut :=
  match transactions with
  | none => { status := 400, success := false, data := none }
  | some txs =>
      { status := 200, success := true
        data := some (estimateBatchGasSavings estimateGas txs) }

/-! ### Request validation of `POST /api/batch` -/

/-- Hexadecimal digit test matching the character class
`[a-fA-F0-9]`. -/
def isHexDigit (c : Char) : Bool :=
  c.isDigit || ('a' ≤ c && c ≤ 'f') || ('A' ≤ c && c ≤ 'F')

/-- Test of the route's address pattern `^0x[a-fA-F0-9]{40}$`. -/
def isValidAddress (s : String) : Bool :=
  match s.data with
  | '0' :: 'x' :: rest => rest.length = 40 && rest.all isHexDigit
  | _ => false

/-- Value of a list of decimal digits. -/
def digitsVal (cs : List Char) : Nat :=
  cs.foldl (fun acc c => acc * 10 + (c.toNat - '0'.toNat)) 0

/-- Decimal parse of an unsigned JS number literal: digits with an
optional fractional part (`"12"`, `"12.5"`, `".5"`, `"12."`); anything
else is NaN (`none`). -/
def parseDecimal (cs : List Char) : Option ℚ :=
  let intPart := cs.takeWhile Char.isDigit
  let rest := cs.dropWhile Char.isDigit
  match rest with
  | [] => if intPart.isEmpty then none else some (digitsVal intPart : ℚ)
  | '.' :: frac =>
      if frac.all Char.isDigit && (!intPart.isEmpty || !frac.isEmpty) then
        some ((digitsVal intPart : ℚ) + (digitsVal frac : ℚ) / (10 : ℚ) ^ frac.length)
      else none
  | _ => none

/-- Model of JavaScript `Number(s)` on the strings the route can see:
optional sign followed by a decimal literal; `Number("") = 0`; a
non-numeric string is NaN (`none`).  (Exotic forms — whitespace, hex,
exponents — are outside the scenarios of the claims.) -/
def jsNumber (s : String) : Option ℚ :=
  match s.data with
  | [] => some 0
  | '-' :: cs => (parseDecimal cs).map (fun q => -q)
  | '+' :: cs => parseDecimal cs
  | cs => parseDecimal cs

/-- JS falsiness of an optional string field: absent (`undefined`) or
the empty string. -/
def isFalsy : Option String → Bool
  | none => true
  | some s => s.isEmpty

/-- Integer denoted by a decimal digit string, used when a persisted
amount string is consumed as `BigInt`; `0` on the (unreachable after
validation) non-numeric case. -/
def decNat (s : String) : Nat :=
  (s.toNat?).getD 0

/-! ### Batching service -/

/-- `BatchingService.estimateTransactionGas`: the network estimate when
the RPC call succeeds, the default gas limit 21000 when anything inside
the `try` throws (transport error, RPC error, malformed value). -/
def estimateTransactionGas (networkEstimate : Except String Nat) : Nat :=
  match networkEstimate with
  | Except.ok gas => gas
  | Except.error _ => 21000

/-- `BatchingService.addToBatch`: estimates gas (falling back to 21000
inside `estimateTransactionGas`), inserts one new row — status takes
the schema default `'pending'`, hash/error/execution columns start
NULL — and returns the generated batch id.  The generated id and the
insertion time enter as parameters `newId` and `now`. -/
def addToBatch (networkEstimate : Except String Nat)
    (userAddress toAddress : String) (amount : Nat)
    (tokenAddress : Option String) (scheduledFor : Option Nat)
    (newId : String) (now : Nat)
    (store : List BatchTransaction) : String × List BatchTransaction :=
  let gasEstimate := estimateTransactionGas networkEstimate
  (newId,
    store ++ [{ batchId := newId
                userAddress := userAddress
                toAddress := toAddress
                amount := amount
                tokenAddress := tokenAddress
                gasEstimate := some gasEstimate
                status := TxStatus.pending
                scheduledFor := scheduledFor
                createdAt := now
                executedAt := none
                txHash := none
                errorMessage := none }])

/-- Row lookup `SELECT * FROM batched_transactions WHERE batch_id = $1`
(first matching row; `batch_id` is UNIQUE in the schema). -/
def findTx (store : List BatchTransaction) (batchId : String) :
    Option BatchTransaction :=
  store.find? (fun t => t.batchId == batchId)

/-- Row update `UPDATE batched_transactions SET ... WHERE <p batch_id>`:
rewrites every row whose id satisfies `p` through `g`. -/
def updRows (p : String → Bool) (g : BatchTransaction → BatchTransaction)
    (store : List BatchTransaction) : List BatchTransaction :=
  store.map fun t => if p t.batchId then g t else t

/-- `BatchingService.updateAnalytics` for the `'default'` scope: insert
a fresh row from the deltas when none exists, else add the deltas and
recompute the average batch size (`0` when a denominator is `0`,
mirroring the source's truthiness guards). -/
def updateAnalytics (current : Option GasAnalytics)
    (batchCount transactionCount gasSaved : Nat) : Option GasAnalytics :=
  match current with
  | none =>
      some { totalGasSaved := gasSaved
             totalBatches := batchCount
             totalTransactions := transactionCount
             averageBatchSize :=
               if transactionCount ≠ 0 ∧ batchCount ≠ 0 then
                 (transactionCount : ℚ) / (batchCount : ℚ)
               else 0 }
  | some cur =>
      let newTotalBatches := cur.totalBatches + batchCount
      let newTotalTransactions := cur.totalTransactions + transactionCount
      let newGasSaved := cur.totalGasSaved + gasSaved
      some { totalGasSaved := newGasSaved
             totalBatches := newTotalBatches
             totalTransactions := newTotalTransactions
             averageBatchSize :=
               if 0 < newTotalBatches then
                 (newTotalTransactions : ℚ) / (newTotalBatches : ℚ)
               else 0 }

/-- Wei per whole native unit: the divisor
`BigInt('1000000000000000000')` of `executeImmediateTransaction`. -/
def weiPerSHM : Nat := 1000000000000000000

/-- Output of `executeImmediateTransaction`: the result object, the
store and analytics afterwards, and the log of `sendTransaction(to,
amount)` calls handed to the wallet signer. -/
structure ExecOneOut where
  result : ExecResult
  txs : List BatchTransaction
  analytics : Option GasAnalytics
  sends : List (String × String)
deriving DecidableEq

/-- `BatchingService.executeImmediateTransaction`: loads the row (not
found → failure result, nothing touched), unconditionally marks it
`'executing'`, converts the stored amount to whole units by truncating
`BigInt` division (rendered as a decimal string), hands it to the
signer, then marks the row `'completed'` (stamping `executed_at` and
`tx_hash`) and credits analytics with `21000 * 30 / 100` gas saved on
success, or marks it `'failed'` with the error message on a signer
throw.  The signer outcome enters as `signer to amount : Except String
String` returning the transaction hash. -/
def executeImmediateTransaction (batchId : String)
    (signer : String → String → Except String String) (now : Nat)
    (store : List BatchTransaction) (analytics : Option GasAnalytics) :
    ExecOneOut :=
  match findTx store batchId with
  | none =>
      { result := { success := false, txHash := none, gasUsed := none
                    error := some "Transaction not found" }
        txs := store, analytics := analytics, sends := [] }
  | some transaction =>
      let store1 := updRows (fun s => s == batchId)
        (fun t => { t with status := TxStatus.executing }) store
      let amountInSHM := Nat.repr (transaction.amount / weiPerSHM)
      match signer transaction.toAddress amountInSHM with
      | Except.ok txHash =>
          let gasUsed := 21000
          let store2 := updRows (fun s => s == batchId)
            (fun t => { t with status := TxStatus.completed
                               executedAt := some now
                               txHash := some txHash }) store1
          let analytics2 := updateAnalytics analytics 1 1 (gasUsed * 30 / 100)
          { result := { success := true, txHash := some txHash
                        gasUsed := some gasUsed, error := none }
            txs := store2, analytics := analytics2
            sends := [(transaction.toAddress, amountInSHM)] }
      | Except.error errorMessage =>
          let store2 := updRows (fun s => s == batchId)
            (fun t => { t with status := TxStatus.failed
                               errorMessage := some errorMessage }) store1
          { result := { success := false, txHash := none, gasUsed := none
                        error := some errorMessage }
            txs := store2, analytics := analytics
            sends := [(transaction.toAddress, amountInSHM)] }

/-! ### Grouping and optimization (`optimizeBatch`) -/

/-- Grouping key of `optimizeBatch`: the string
`` `${tx.toAddress}_${tx.tokenAddress || 'native'}` `` — an absent or
empty (falsy) token address becomes `'native'`. -/
def txKey (t : BatchTransaction) : String :=
  t.toAddress ++ "_" ++
    (match t.tokenAddress with
     | some s => if s.isEmpty then "native" else s
     | none => "native")

/-- One step of filling the JS `Map`: append the transaction to the
group of its key, or append a fresh singleton group at the end (JS
`Map` preserves insertion order of keys). -/
def insertGrouped (m : List (String × List BatchTransaction))
    (t : BatchTransaction) : List (String × List BatchTransaction) :=
  match m with
  | [] => [(txKey t, [t])]
  | (k, g) :: rest =>
      if k = txKey t then (k, g ++ [t]) :: rest
      else (k, g) :: insertGrouped rest t

/-- The `Map<string, BatchTransaction[]>` of `optimizeBatch` after the
grouping loop. -/
def groupByKey (txs : List BatchTransaction) :
    List (String × List BatchTransaction) :=
  txs.foldl insertGrouped []

/-- Summed amount of a group (`reduce((sum, tx) => sum + BigInt(tx.amount), 0)`). -/
def groupTotal (g : List BatchTransaction) : Nat :=
  (g.map (fun t => t.amount)).sum

/-- Comparison under which `optimizeBatch` sorts its groups: descending
summed amount.  (The source comparator returns `bTotal > aTotal ? 1 :
-1`; on equal totals it never answers 0, so the order of equal-sum
groups is implementation noise — any sort descending by total realises
it.) -/
def groupGE (a b : List BatchTransaction) : Prop :=
  groupTotal b ≤ groupTotal a

instance : DecidableRel groupGE :=
  fun a b => inferInstanceAs (Decidable (groupTotal b ≤ groupTotal a))

instance : IsTotal (List BatchTransaction) groupGE :=
  ⟨fun a b => Nat.le_total (groupTotal b) (groupTotal a)⟩

instance : IsTrans (List BatchTransaction) groupGE :=
  ⟨fun _ _ _ hab hbc => Nat.le_trans hbc hab⟩

/-- `BatchingService.optimizeBatch`: group by `txKey`, then sort the
groups by descending summed amount. -/
def optimizeBatch (txs : List BatchTransaction) :
    List (List BatchTransaction) :=
  List.insertionSort groupGE ((groupByKey txs).map Prod.snd)

/-! ### Batch execution (`executeBatch`) -/

/-- Output of `executeBatch` and of one pass of the auto-processor:
result object plus the store and analytics afterwards. -/
structure ExecBatchOut where
  result : ExecResult
  txs : List BatchTransaction
  analytics : Option GasAnalytics
deriving DecidableEq

/-- Per-transaction loop of `executeBatch`.  Iteration `i` generates
the mock hash `gen i`, pushes it and adds the flat 21000 gas *before*
the fallible row update (`txHashes.push` and `totalGasUsed +=` precede
the `await client.query` in the source), then marks the row
`'completed'` when the update succeeds (`updOk i = ok`) or `'failed'`
with the thrown message when it does not. -/
def execBatchLoop (gen : Nat → String) (updOk : Nat → Except String Unit)
    (now : Nat) :
    List BatchTransaction → Nat → List String → Nat →
    List BatchTransaction → List String × Nat × List BatchTransaction
  | [], _, txHashes, totalGasUsed, store => (txHashes, totalGasUsed, store)
  | t :: rest, i, txHashes, totalGasUsed, store =>
      let mockTxHash := gen i
      let gasUsed := 21000
      let txHashes2 := txHashes ++ [mockTxHash]
      let totalGasUsed2 := totalGasUsed + gasUsed
      let store2 :=
        match updOk i with
        | Except.ok _ =>
            updRows (fun s => s == t.batchId)
              (fun r => { r with status := TxStatus.completed
                                 executedAt := some now
                                 txHash := some mockTxHash }) store
        | Except.error m =>
            updRows (fun s => s == t.batchId)
              (fun r => { r with status := TxStatus.failed
                                 errorMessage := some m }) store
      execBatchLoop gen updOk now rest (i + 1) txHashes2 totalGasUsed2 store2

/-- `BatchingService.executeBatch`: an empty input list fails
wholesale; otherwise every listed row is first marked `'executing'` in
one bulk update (`WHERE batch_id = ANY(...)`), the per-transaction loop
runs, analytics are credited once with 30% of the aggregated gas, and
the call reports success carrying `txHashes[0]` and the aggregate
gas. -/
def executeBatch (gen : Nat → String) (updOk : Nat → Except String Unit)
    (transactions : List BatchTransaction) (now : Nat)
    (store : List BatchTransaction) (analytics : Option GasAnalytics) :
    ExecBatchOut :=
  if transactions.isEmpty then
    { result := { success := false, txHash := none, gasUsed := none
                  error := some "No transactions to execute" }
      txs := store, analytics := analytics }
  else
    let batchIds := transactions.map (fun t => t.batchId)
    let store1 := updRows (fun s => batchIds.contains s)
      (fun t => { t with status := TxStatus.executing }) store
    let out := execBatchLoop gen updOk now transactions 0 [] 0 store1
    let analytics2 := updateAnalytics analytics 1 transactions.length
      (out.2.1 * 30 / 100)
    { result := { success := true, txHash := out.1.head?
                  gasUsed := some out.2.1, error := none }
      txs := out.2.2, analytics := analytics2 }

/-! ### Auto-batch processing -/

/-- `BatchingService.getPendingTransactions`: rows with status
`'pending'` ordered by creation time (the store list is kept in that
order), limited. -/
def getPendingTransactions (limit : Nat)
    (store : List BatchTransaction) : List BatchTransaction :=
  (store.filter (fun t => t.status == TxStatus.pending)).take limit

/-- `BatchingService.processAutoBatching`: reads up to `maxBatchSize`
pending rows; below `minTransactionCount` it only logs and returns
(state untouched); otherwise it optimizes the pending rows into groups
and executes every group that still meets `minTransactionCount`. -/
def processAutoBatching (gen : Nat → String)
    (updOk : Nat → Except String Unit) (config : BatchConfig) (now : Nat)
    (store : List BatchTransaction) (analytics : Option GasAnalytics) :
    List BatchTransaction × Option GasAnalytics :=
  let pendingTransactions := getPendingTransactions config.maxBatchSize store
  if pendingTransactions.length < config.minTransactionCount then
    (store, analytics)
  else
    (optimizeBatch pendingTransactions).foldl
      (fun acc batch =>
        if config.minTransactionCount ≤ batch.length then
          let out := executeBatch gen updOk batch now acc.1 acc.2
          (out.txs, out.analytics)
        else acc)
      (store, analytics)

/-! ### Route `POST /api/batch` -/

/-- Request body of `POST /api/batch`; absent JSON fields are `none`. -/
structure BatchPostBody where
  userAddress : Option String
  toAddress : Option String
  amount : Option String
  tokenAddress : Option String
  scheduledFor : Option Nat
deriving DecidableEq

/-- Response of `POST /api/batch`: HTTP status and the store
afterwards. -/
structure BatchPostOut where
  status : Nat
  txs : List BatchTransaction
deriving DecidableEq

/-- Handler of `POST /api/batch`: 400 when a required field is falsy,
when an address misses the `^0x[a-fA-F0-9]{40}$` pattern, or when
`Number(amount)` is NaN or non-positive — all checked before
`addToBatch` runs, so a rejected request persists nothing. -/
def postBatch (body : BatchPostBody) (networkEstimate : Except String Nat)
    (newId : String) (now : Nat) (store : List BatchTransaction) :
    BatchPostOut :=
  if isFalsy body.userAddress || isFalsy body.toAddress ||
      isFalsy body.amount then
    { status := 400, txs := store }
  else
    let userAddress := body.userAddress.getD ""
    let toAddress := body.toAddress.getD ""
    let amount := body.amount.getD ""
    if !(isValidAddress userAddress && isValidAddress toAddress) then
      { status := 400, txs := store }
    else
      match jsNumber amount with
      | none => { status := 400, txs := store }
      | some q =>
          if q ≤ 0 then { status := 400, txs := store }
          else
            let out := addToBatch networkEstimate userAddress toAddress
              (decNat amount) body.tokenAddress body.scheduledFor newId now
              store
            { status := 200, txs := out.2 }

/-- Does an optional request field hold a string matching the address
pattern?  (An absent field matches nothing.) -/
def addressFieldOk (o : Option String) : Bool :=
  match o with
  | some s => isValidAddress s
  | none => false

/-- Does an optional request field hold a string that `Number` parses
to a strictly positive value? -/
def amountFieldPositive (o : Option String) : Bool :=
  match o with
  | some s =>
      match jsNumber s with
      | some q => decide (0 < q)
      | none => false
  | none => false

/-! ### Concrete fixtures used by witnesses and counterexamples -/

/-- Builder of a queue row with the common defaults of a freshly
enqueued transfer. -/
def mkSampleTx (batchId toAddress : String) (amount : Nat)
    (status : TxStatus) : BatchTransaction :=
  { batchId := batchId
    userAddress := "0xaaaaaaaaaaaaaaaaaaaaaaaaaaaaaaaaaaaaaaaa"
    toAddress := toAddress
    amount := amount
    tokenAddress := none
    gasEstimate := some 21000
    status := status
    scheduledFor := none
    createdAt := 0
    executedAt := none
    txHash := none
    errorMessage := none }

/-- Deterministic stand-in for the `Math.random()` hash generator. -/
def mockGen : Nat → String := fun _ => "0xmockhash"

/-- Row-update oracle under which every per-transaction update
succeeds. -/
def okUpd : Nat → Except String Unit := fun _ => Except.ok ()

/-- Row already in the terminal state `completed`, carrying a hash. -/
def c1Record : BatchTransaction :=
  { mkSampleTx "b1" "0xdddddddddddddddddddddddddddddddddddddddd"
      (2 * weiPerSHM) TxStatus.completed with
    txHash := some "0xold", executedAt := some 1 }

/-- Two fresh pending rows for the mixed-outcome batch scenario. -/
def c2A : BatchTransaction := mkSampleTx "a" "0xA" (10 * weiPerSHM) TxStatus.pending

/-- Second row of the mixed-outcome batch scenario. -/
def c2B : BatchTransaction := mkSampleTx "b" "0xB" (20 * weiPerSHM) TxStatus.pending

/-- Hash generator distinguishing the two loop iterations. -/
def c2gen : Nat → String := fun i => if i = 0 then "0xh0" else "0xh1"

/-- Update oracle under which the first iteration's row update throws
and the second succeeds. -/
def c2upd : Nat → Except String Unit :=
  fun i => if i = 0 then Except.error "boom" else Except.ok ()

/-- Request body with a malformed sender address. -/
def c3Body : BatchPostBody :=
  { userAddress := some "0xZZ"
    toAddress := some "0xbbbbbbbbbbbbbbbbbbbbbbbbbbbbbbbbbbbbbbbb"
    amount := some "5"
    tokenAddress := none
    scheduledFor := none }

/-- Recipient containing an underscore: its grouping key collides with
that of `c5v`. -/
def c5u : BatchTransaction := mkSampleTx "u" "0xB_" 1 TxStatus.pending

/-- Different recipient whose token id makes the same grouping key as
`c5u`. -/
def c5v : BatchTransaction :=
  { mkSampleTx "v" "0xB" 2 TxStatus.pending with tokenAddress := some "_native" }

/-- Transaction object whose gas the estimation oracle puts at the
standard 21000. -/
def c7obj : TransactionObject :=
  { fromAddress := "0xaaaaaaaaaaaaaaaaaaaaaaaaaaaaaaaaaaaaaaaa"
    toAddr := none
    value := none }

/-- Auto-batching configuration with `minTransactionCount = 5`. -/
def autoCfg : BatchConfig :=
  { dappId := "default", maxBatchSize := 10
    executionFrequency := ExecutionFrequency.immediate
    minTransactionCount := 5, maxWaitTime := 30 }

/-- Store holding exactly three pending rows. -/
def pending3 : List BatchTransaction :=
  [mkSampleTx "p1" "0xA" 1 TxStatus.pending,
   mkSampleTx "p2" "0xA" 2 TxStatus.pending,
   mkSampleTx "p3" "0xB" 3 TxStatus.pending]

/-- Single pending row for the wholesale-failure witness. -/
def w8tx : BatchTransaction := mkSampleTx "w8" "0xA" (3 * weiPerSHM) TxStatus.pending

/-- Row whose amount is half a whole unit (`5 * 10^17` wei). -/
def c9Rec : BatchTransaction :=
  mkSampleTx "w9" "0xdddddddddddddddddddddddddddddddddddddddd"
    500000000000000000 TxStatus.pending

/-! ### Store-update lemmas -/

/-- Looking a row up after an update that rewrites it: when the updater
preserves ids and the predicate selects `batchId`, the found row is the
rewritten one. -/
theorem findTx_updRows_pos (p : String → Bool)
    (g : BatchTransaction → BatchTransaction) (batchId : String)
    {r : BatchTransaction}
    (hg : ∀ t, (g t).batchId = t.batchId) (hp : p batchId = true) :
    ∀ {store : List BatchTransaction}, findTx store batchId = some r →
      findTx (updRows p g store) batchId = some (g r) := by
  intro store
  induction store with
  | nil => intro hr; simp [findTx] at hr
  | cons t rest ih =>
    intro hr
    by_cases hb : t.batchId = batchId
    · rw [findTx, List.find?_cons_of_pos _ (by simp [hb])] at hr
      have ht : t = r := by injection hr
      subst ht
      have hmapped : (if p t.batchId then g t else t) = g t := by
        rw [hb, if_pos hp]
      rw [findTx, updRows, List.map_cons, hmapped,
        List.find?_cons_of_pos _ (by simp [hg, hb])]
    · rw [findTx, List.find?_cons_of_neg _ (by simp [hb])] at hr
      have hr2 := ih hr
      rw [findTx, updRows, List.map_cons]
      rw [List.find?_cons_of_neg]
      · exact hr2
      · by_cases hpt : p t.batchId = true
        · simp [hpt, hg, hb]
        · simp at hpt
          simp [hpt, hb]

/-- A row whose id the update predicate does not select is found
unchanged. -/
theorem findTx_updRows_neg (p : String → Bool)
    (g : BatchTransaction → BatchTransaction) (batchId : String)
    (hg : ∀ t, (g t).batchId = t.batchId) (hp : p batchId = false) :
    ∀ (store : List BatchTransaction),
      findTx (updRows p g store) batchId = findTx store batchId := by
  intro store
  induction store with
  | nil => rfl
  | cons t rest ih =>
    by_cases hb : t.batchId = batchId
    · have hpt : p t.batchId = false := by rw [hb]; exact hp
      rw [updRows, List.map_cons, hpt]
      simp only [if_false, Bool.false_eq_true]
      rw [findTx, List.find?_cons_of_pos _ (by simp [hb]),
        findTx, List.find?_cons_of_pos _ (by simp [hb])]
    · rw [updRows, List.map_cons]
      by_cases hpt : p t.batchId = true
      · rw [if_pos hpt, findTx, List.find?_cons_of_neg _ (by simp [hg, hb]),
          findTx, List.find?_cons_of_neg _ (by simp [hb])]
        exact ih
      · simp at hpt
        rw [if_neg (by rw [hpt]; exact Bool.false_ne_true), findTx,
          List.find?_cons_of_neg _ (by simp [hb]),
          findTx, List.find?_cons_of_neg _ (by simp [hb])]
        exact ih

/-- A list of strings none of which is `b` does not contain `b`. -/
theorem contains_eq_false_of_forall_ne {l : List String} {b : String}
    (h : ∀ x ∈ l, x ≠ b) : l.contains b = false := by
  have hb : b ∉ l := fun hm => h b hm rfl
  simp [hb]

/-- Rows not listed in the batch are untouched by the per-transaction
loop of `executeBatch`. -/
theorem findTx_execBatchLoop_frame (gen : Nat → String)
    (updOk : Nat → Except String Unit) (now : Nat) {b : String} :
    ∀ (txs : List BatchTransaction) (i : Nat) (hashes : List String)
      (gas : Nat) (store : List BatchTransaction),
      (∀ t ∈ txs, t.batchId ≠ b) →
      findTx (execBatchLoop gen updOk now txs i hashes gas store).2.2 b
        = findTx store b := by
  intro txs
  induction txs with
  | nil => intro i hashes gas store _; rfl
  | cons t rest ih =>
    intro i hashes gas store h
    have hb : (b == t.batchId) = false :=
      beq_eq_false_iff_ne.mpr (fun hbt => (h t (by simp)) hbt.symm)
    have hrest : ∀ u ∈ rest, u.batchId ≠ b := fun u hu => h u (by simp [hu])
    rw [execBatchLoop]
    cases hu : updOk i with
    | ok v =>
      simp only [hu]
      rw [ih (i + 1) _ _ _ hrest]
      refine findTx_updRows_neg _ _ _ ?_ ?_ _
      · exact fun _ => rfl
      · exact hb
    | error m =>
      simp only [hu]
      rw [ih (i + 1) _ _ _ hrest]
      refine findTx_updRows_neg _ _ _ ?_ ?_ _
      · exact fun _ => rfl
      · exact hb

/-! ### Claim theorems -/

/-- C8.  `executeBatch` fails wholesale exactly on the empty input
list: the empty list yields a failure result, every non-empty list
yields `success = true` whatever the per-transaction update outcomes
are, and rows whose id is not in the batch are left untouched (an
individual failure is recorded on the affected record only). -/
theorem executeBatch_wholesale_iff_empty (gen : Nat → String)
    (updOk : Nat → Except String Unit) (now : Nat)
    (store : List BatchTransaction) (analytics : Option GasAnalytics)
    (transactions : List BatchTransaction) :
    (executeBatch gen updOk [] now store analytics).result.success = false
    ∧ (transactions ≠ [] →
        (executeBatch gen updOk transactions now store analytics).result.success
          = true)
    ∧ (∀ b : String, (∀ t ∈ transactions, t.batchId ≠ b) →
        findTx (executeBatch gen updOk transactions now store analytics).txs b
          = findTx store b) := by
  refine ⟨rfl, ?_, ?_⟩
  · intro hne
    cases transactions with
    | nil => cases hne rfl
    | cons t ts => rfl
  · intro b hb
    cases transactions with
    | nil => rfl
    | cons t ts =>
      show findTx (execBatchLoop gen updOk now (t :: ts) 0 [] 0
        (updRows (fun s => ((t :: ts).map (fun u => u.batchId)).contains s)
          (fun u => { u with status := TxStatus.executing }) store)).2.2 b
        = findTx store b
      rw [findTx_execBatchLoop_frame gen updOk now (t :: ts) 0 [] 0 _ hb]
      refine findTx_updRows_neg _ _ _ ?_ ?_ store
      · exact fun _ => rfl
      · refine contains_eq_false_of_forall_ne ?_
        intro x hx
        obtain ⟨u, hu, rfl⟩ := List.mem_map.mp hx
        exact hb u hu

/-- Witness for C8 at a one-element batch: the empty call fails, the
non-empty call succeeds, and an unrelated row is found unchanged. -/
theorem executeBatch_wholesale_iff_empty_witness :
    ([w8tx] ≠ ([] : List BatchTransaction))
    ∧ (executeBatch mockGen okUpd [w8tx] 0 [w8tx] none).result.success = true
    ∧ findTx (executeBatch mockGen okUpd [w8tx] 0 [w8tx] none).txs "zz"
        = findTx [w8tx] "zz" :=
  ⟨by decide,
   (executeBatch_wholesale_iff_empty mockGen okUpd 0 [w8tx] none [w8tx]).2.1
     (by decide),
   (executeBatch_wholesale_iff_empty mockGen okUpd 0 [w8tx] none [w8tx]).2.2
     "zz" (by decide)⟩

/-- C6.  When fewer pending transactions than `minTransactionCount`
are fetched, `processAutoBatching` changes neither the store nor the
analytics record: the invocation is a no-op, not an error. -/
theorem processAutoBatching_below_min_noop (gen : Nat → String)
    (updOk : Nat → Except String Unit) (config : BatchConfig) (now : Nat)
    (store : List BatchTransaction) (analytics : Option GasAnalytics)
    (h : (getPendingTransactions config.maxBatchSize store).length
          < config.minTransactionCount) :
    processAutoBatching gen updOk config now store analytics
      = (store, analytics) := by
  simp only [processAutoBatching]
  rw [if_pos h]

/-- Witness for C6: three pending rows against
`minTransactionCount = 5` leave store and analytics untouched. -/
theorem processAutoBatching_below_min_noop_witness :
    ((getPendingTransactions autoCfg.maxBatchSize pending3).length
        < autoCfg.minTransactionCount)
    ∧ processAutoBatching mockGen okUpd autoCfg 0 pending3 none
        = (pending3, none) :=
  ⟨by decide,
   processAutoBatching_below_min_noop mockGen okUpd autoCfg 0 pending3 none
     (by decide)⟩

/-- C4.  When the network gas-estimation call fails, `addToBatch`
still persists the row — with the default estimate 21000 — and
returns the batch id; the enqueue does not fail on account of the
estimation error. -/
theorem addToBatch_estimation_failure_defaults_21000 (e : String)
    (userAddress toAddress : String) (amount : Nat)
    (tokenAddress : Option String) (scheduledFor : Option Nat)
    (newId : String) (now : Nat) (store : List BatchTransaction) :
    addToBatch (Except.error e) userAddress toAddress amount tokenAddress
        scheduledFor newId now store
      = (newId, store ++
          [{ batchId := newId
             userAddress := userAddress
             toAddress := toAddress
             amount := amount
             tokenAddress := tokenAddress
             gasEstimate := some 21000
             status := TxStatus.pending
             scheduledFor := scheduledFor
             createdAt := now
             executedAt := none
             txHash := none
             errorMessage := none }]) := rfl

/-- C7 (amended).  The batch-savings estimator returns the individual
estimates unchanged, a synthetic batch gas equal to the binary64 floor
`Math.floor(S * 0.7)` plus 21000 for the sum `S` of the individual
estimates, an absolute savings equal to `S` minus that batch gas, and
a savings percentage equal to the binary64 value of
`savings / S * 100`. -/
theorem estimateBatchGasSavings_formula
    (estimateGas : TransactionObject → Nat)
    (transactions : List TransactionObject) :
    (estimateBatchGasSavings estimateGas transactions).individualGas
        = transactions.map estimateGas
    ∧ (estimateBatchGasSavings estimateGas transactions).batchGas
        = jsFloorMul07 ((transactions.map estimateGas).sum) + 21000
    ∧ (estimateBatchGasSavings estimateGas transactions).totalSavings
        = (((transactions.map estimateGas).sum : ℕ) : ℤ)
            - ((estimateBatchGasSavings estimateGas transactions).batchGas : ℤ)
    ∧ (estimateBatchGasSavings estimateGas transactions).savingsPercentage
        = fl64 (fl64
            ((((estimateBatchGasSavings estimateGas transactions).totalSavings : ℤ) : ℚ)
              / (((transactions.map estimateGas).sum : ℕ) : ℚ)) * 100) :=
  ⟨rfl, rfl, rfl, rfl⟩

/-- C7 (counterexample).  At the single standard transfer estimate,
`S = 21000`, the binary64 product `21000 * 0.7` is
`14699.999999999998…`, so the program's synthetic batch gas is
`35699`, while the claimed exact formula `⌊0.7 * S⌋ + 21000` gives
`35700`. -/
theorem estimateBatchGasSavings_float_floor_counterexample :
    (estimateBatchGasSavings (fun _ => 21000) [c7obj]).batchGas = 35699
    ∧ (⌊(0.7 : ℚ) * ((21000 : ℕ) : ℚ)⌋ + 21000 : ℤ) = 35700
    ∧ ((35699 : ℤ) ≠ 35700) := by
  refine ⟨by decide, ?_, by decide⟩
  have h : (0.7 : ℚ) * ((21000 : ℕ) : ℚ) = ((14700 : ℤ) : ℚ) := by norm_num
  rw [h, Int.floor_intCast]
  decide

/-- C9.  The amount handed to the wallet signer by
`executeImmediateTransaction` is the truncating integer quotient of the
stored amount by `10^18`, rendered as a decimal string — whatever the
signer outcome is — and an amount below one whole unit is handed over
as the string `"0"`. -/
theorem executeImmediate_amount_truncating (batchId : String)
    (signer : String → String → Except String String) (now : Nat)
    (store : List BatchTransaction) (analytics : Option GasAnalytics)
    (r : BatchTransaction) (hr : findTx store batchId = some r) :
    (executeImmediateTransaction batchId signer now store analytics).sends
        = [(r.toAddress, Nat.repr (r.amount / weiPerSHM))]
    ∧ weiPerSHM = 10 ^ 18
    ∧ (r.amount < 10 ^ 18 → Nat.repr (r.amount / weiPerSHM) = "0") := by
  refine ⟨?_, by decide, ?_⟩
  · rw [executeImmediateTransaction, hr]
    cases hs : signer r.toAddress (Nat.repr (r.amount / weiPerSHM)) with
    | ok h => simp only [hs]
    | error e => simp only [hs]
  · intro hlt
    have h0 : r.amount / weiPerSHM = 0 := Nat.div_eq_of_lt (by exact hlt)
    rw [h0]
    rfl

/-- Witness for C9 on a row holding half a whole unit: the signer is
handed the pair `(recipient, "0")`. -/
theorem executeImmediate_amount_truncating_witness :
    findTx [c9Rec] "w9" = some c9Rec
    ∧ ((executeImmediateTransaction "w9" (fun _ _ => Except.ok "0xh") 3 [c9Rec]
          none).sends
        = [(c9Rec.toAddress, Nat.repr (c9Rec.amount / weiPerSHM))]
      ∧ weiPerSHM = 10 ^ 18
      ∧ (c9Rec.amount < 10 ^ 18 →
          Nat.repr (c9Rec.amount / weiPerSHM) = "0")) :=
  ⟨by decide,
   executeImmediate_amount_truncating "w9" (fun _ _ => Except.ok "0xh") 3
     [c9Rec] none c9Rec (by decide)⟩

/-- C10.  `POST /api/shardeum` accepts the empty transaction list (the
route only checks the field is an array) and the estimator then
produces an individual-gas sum of `0`, a synthetic batch gas of
`21000`, a negative total savings of `0 - 21000 = -21000`, and a
percentage computed by dividing by the zero sum instead of signalling
an error. -/
theorem postShardeum_empty_list_accepted :
    postShardeum (fun _ => 0) (some [])
      = { status := 200, success := true
          data := some
            { individualGas := []
              batchGas := 21000
              totalSavings := (0 : ℤ) - 21000
              savingsPercentage := fl64 (fl64
                ((((0 : ℤ) - 21000 : ℤ) : ℚ) / ((0 : ℕ) : ℚ)) * 100) } }
    ∧ ([] : List Nat).sum = 0
    ∧ ((0 : ℤ) - 21000 < 0) := by
  refine ⟨rfl, rfl, by decide⟩

/-- C1 (failing input).  `executeImmediateTransaction` invoked on a row
already in the terminal state `completed` does not leave it unchanged:
it re-executes the row and overwrites `txHash` (and `executedAt`),
contradicting the terminal-state immutability the specification
demands. -/
theorem executeImmediate_overwrites_terminal :
    c1Record.status = TxStatus.completed
    ∧ c1Record.txHash = some "0xold"
    ∧ (executeImmediateTransaction "b1" (fun _ _ => Except.ok "0xnew") 7
        [c1Record] none).txs
      = [{ c1Record with status := TxStatus.completed
                         executedAt := some 7
                         txHash := some "0xnew" }]
    ∧ some "0xnew" ≠ c1Record.txHash := by
  refine ⟨rfl, rfl, ?_, by decide⟩
  rfl

/-- C3.  A `POST /api/batch` request whose sender or recipient misses
the `^0x[a-fA-F0-9]{40}$` pattern, or whose amount does not parse to a
positive number, is answered with status 400 and persists no row: the
store comes back unchanged. -/
theorem postBatch_invalid_rejected (body : BatchPostBody)
    (networkEstimate : Except String Nat) (newId : String) (now : Nat)
    (store : List BatchTransaction)
    (h : addressFieldOk body.userAddress = false
       ∨ addressFieldOk body.toAddress = false
       ∨ amountFieldPositive body.amount = false) :
    postBatch body networkEstimate newId now store
      = { status := 400, txs := store } := by
  rcases hu : body.userAddress with _ | ua
  · simp [postBatch, hu, isFalsy]
  rcases ht : body.toAddress with _ | ta
  · simp [postBatch, hu, ht, isFalsy]
  rcases ha : body.amount with _ | am
  · simp [postBatch, hu, ht, ha, isFalsy]
  rw [hu, ht, ha] at h
  simp only [addressFieldOk, amountFieldPositive] at h
  rcases h with h1 | h2 | h3
  · simp [postBatch, hu, ht, ha, isFalsy, h1, ite_self]
  · simp [postBatch, hu, ht, ha, isFalsy, h2, ite_self]
  · rcases hq : jsNumber am with _ | q
    · simp [postBatch, hu, ht, ha, isFalsy, hq, ite_self]
    · rw [hq] at h3
      simp only [decide_eq_false_iff_not] at h3
      have hle : q ≤ 0 := le_of_not_lt h3
      simp [postBatch, hu, ht, ha, isFalsy, hq, hle, ite_self]

/-- Witness for C3: a request with the malformed sender `"0xZZ"` is
rejected with 400 and the (empty) store stays empty. -/
theorem postBatch_invalid_rejected_witness :
    (addressFieldOk c3Body.userAddress = false
      ∨ addressFieldOk c3Body.toAddress = false
      ∨ amountFieldPositive c3Body.amount = false)
    ∧ postBatch c3Body (Except.ok 30000) "id1" 0 []
        = { status := 400, txs := [] } :=
  ⟨Or.inl (by decide),
   postBatch_invalid_rejected c3Body (Except.ok 30000) "id1" 0 []
     (Or.inl (by decide))⟩

/-- C2 (counterexample).  A two-element batch whose *first*
transaction's row update throws and whose second succeeds: exactly one
record ends `completed` with a hash and one `failed` with a message,
the call reports success — but the returned hash is the one generated
for the failed first transaction (`"0xh0"`), not the surviving
record's hash (`"0xh1"`), because the source pushes the mock hash
before the fallible row update. -/
theorem executeBatch_returned_hash_counterexample :
    (executeBatch c2gen c2upd [c2A, c2B] 5 [c2A, c2B] none).result.success
        = true
    ∧ findTx (executeBatch c2gen c2upd [c2A, c2B] 5 [c2A, c2B] none).txs "a"
        = some { c2A with status := TxStatus.failed
                          errorMessage := some "boom" }
    ∧ findTx (executeBatch c2gen c2upd [c2A, c2B] 5 [c2A, c2B] none).txs "b"
        = some { c2B with status := TxStatus.completed
                          executedAt := some 5, txHash := some "0xh1" }
    ∧ (executeBatch c2gen c2upd [c2A, c2B] 5 [c2A, c2B] none).result.txHash
        = some "0xh0"
    ∧ (some "0xh1" : Option String) ≠ some "0xh0"
    := ⟨rfl, rfl, rfl, rfl, by decide⟩

/-- C2 (amended).  Over a two-element list with exactly one failing and
one succeeding row update, `executeBatch` leaves exactly one of the two
records `completed` carrying a hash and exactly one `failed` carrying
the error message, and itself reports success carrying the hash
generated for the *first* transaction of the list — the surviving
record's hash exactly when the succeeding transaction comes first. -/
theorem executeBatch_one_fail_one_success (gen : Nat → String)
    (updOk : Nat → Except String Unit) (now : Nat)
    (store : List BatchTransaction) (analytics : Option GasAnalytics)
    (ta tb ra rb : BatchTransaction) (m : String)
    (hne : ta.batchId ≠ tb.batchId)
    (hra : findTx store ta.batchId = some ra)
    (hrb : findTx store tb.batchId = some rb) :
    ((updOk 0 = Except.error m ∧ updOk 1 = Except.ok ()) →
        (executeBatch gen updOk [ta, tb] now store analytics).result.success
            = true
        ∧ (executeBatch gen updOk [ta, tb] now store analytics).result.txHash
            = some (gen 0)
        ∧ findTx (executeBatch gen updOk [ta, tb] now store analytics).txs
              ta.batchId
            = some { ra with status := TxStatus.failed
                             errorMessage := some m }
        ∧ findTx (executeBatch gen updOk [ta, tb] now store analytics).txs
              tb.batchId
            = some { rb with status := TxStatus.completed
                             executedAt := some now
                             txHash := some (gen 1) })
    ∧ ((updOk 0 = Except.ok () ∧ updOk 1 = Except.error m) →
        (executeBatch gen updOk [ta, tb] now store analytics).result.success
            = true
        ∧ (executeBatch gen updOk [ta, tb] now store analytics).result.txHash
            = some (gen 0)
        ∧ findTx (executeBatch gen updOk [ta, tb] now store analytics).txs
              ta.batchId
            = some { ra with status := TxStatus.completed
                             executedAt := some now
                             txHash := some (gen 0) }
        ∧ findTx (executeBatch gen updOk [ta, tb] now store analytics).txs
              tb.batchId
            = some { rb with status := TxStatus.failed
                             errorMessage := some m }) := by
  constructor
  · rintro ⟨h0, h1⟩
    have hsq : executeBatch gen updOk [ta, tb] now store analytics =
        { result := { success := true, txHash := some (gen 0)
                      gasUsed := some 42000, error := none }
          txs := updRows (fun s => s == tb.batchId)
              (fun r => { r with status := TxStatus.completed
                                 executedAt := some now
                                 txHash := some (gen 1) })
              (updRows (fun s => s == ta.batchId)
                (fun r => { r with status := TxStatus.failed
                                   errorMessage := some m })
                (updRows
                  (fun s => (([ta, tb].map (fun u => u.batchId)).contains s))
                  (fun t => { t with status := TxStatus.executing }) store))
          analytics := updateAnalytics analytics 1 2 12600 } := by
      simp only [executeBatch, execBatchLoop, h0, h1, List.isEmpty_cons,
        Bool.false_eq_true, if_false, List.head?_cons, List.nil_append,
        List.cons_append, zero_add, List.length_cons, List.length_nil]
    rw [hsq]
    dsimp only
    have h1a : findTx
        (updRows (fun s => (([ta, tb].map (fun u => u.batchId)).contains s))
          (fun t => { t with status := TxStatus.executing }) store)
        ta.batchId = some { ra with status := TxStatus.executing } := by
      refine findTx_updRows_pos _ _ _ ?_ ?_ hra
      · exact fun _ => rfl
      · simp
    have h2a := findTx_updRows_pos (fun s => s == ta.batchId)
      (fun r => { r with status := TxStatus.failed
                         errorMessage := some m })
      ta.batchId (fun _ => rfl) (by simp) h1a
    have h1b : findTx
        (updRows (fun s => (([ta, tb].map (fun u => u.batchId)).contains s))
          (fun t => { t with status := TxStatus.executing }) store)
        tb.batchId = some { rb with status := TxStatus.executing } := by
      refine findTx_updRows_pos _ _ _ ?_ ?_ hrb
      · exact fun _ => rfl
      · simp
    have h3b := findTx_updRows_pos (fun s => s == tb.batchId)
      (fun r => { r with status := TxStatus.completed
                         executedAt := some now
                         txHash := some (gen 1) })
      tb.batchId (fun _ => rfl) (by simp)
      ((findTx_updRows_neg (fun s => s == ta.batchId)
          (fun r => { r with status := TxStatus.failed
                             errorMessage := some m })
          tb.batchId (fun _ => rfl)
          (beq_eq_false_iff_ne.mpr (Ne.symm hne)) _).trans h1b)
    refine ⟨rfl, rfl, ?_, h3b⟩
    refine Eq.trans (findTx_updRows_neg _ _ _ ?_ ?_ _) ?_
    · exact fun _ => rfl
    · exact beq_eq_false_iff_ne.mpr hne
    · exact h2a
  · rintro ⟨h0, h1⟩
    have hsq : executeBatch gen updOk [ta, tb] now store analytics =
        { result := { success := true, txHash := some (gen 0)
                      gasUsed := some 42000, error := none }
          txs := updRows (fun s => s == tb.batchId)
              (fun r => { r with status := TxStatus.failed
                                 errorMessage := some m })
              (updRows (fun s => s == ta.batchId)
                (fun r => { r with status := TxStatus.completed
                                   executedAt := some now
                                   txHash := some (gen 0) })
                (updRows
                  (fun s => (([ta, tb].map (fun u => u.batchId)).contains s))
                  (fun t => { t with status := TxStatus.executing }) store))
          analytics := updateAnalytics analytics 1 2 12600 } := by
      simp only [executeBatch, execBatchLoop, h0, h1, List.isEmpty_cons,
        Bool.false_eq_true, if_false, List.head?_cons, List.nil_append,
        List.cons_append, zero_add, List.length_cons, List.length_nil]
    rw [hsq]
    dsimp only
    have h1a : findTx
        (updRows (fun s => (([ta, tb].map (fun u => u.batchId)).contains s))
          (fun t => { t with status := TxStatus.executing }) store)
        ta.batchId = some { ra with status := TxStatus.executing } := by
      refine findTx_updRows_pos _ _ _ ?_ ?_ hra
      · exact fun _ => rfl
      · simp
    have h2a := findTx_updRows_pos (fun s => s == ta.batchId)
      (fun r => { r with status := TxStatus.completed
                         executedAt := some now
                         txHash := some (gen 0) })
      ta.batchId (fun _ => rfl) (by simp) h1a
    have h1b : findTx
        (updRows (fun s => (([ta, tb].map (fun u => u.batchId)).contains s))
          (fun t => { t with status := TxStatus.executing }) store)
        tb.batchId = some { rb with status := TxStatus.executing } := by
      refine findTx_updRows_pos _ _ _ ?_ ?_ hrb
      · exact fun _ => rfl
      · simp
    have h3b := findTx_updRows_pos (fun s => s == tb.batchId)
      (fun r => { r with status := TxStatus.failed
                         errorMessage := some m })
      tb.batchId (fun _ => rfl) (by simp)
      ((findTx_updRows_neg (fun s => s == ta.batchId)
          (fun r => { r with status := TxStatus.completed
                             executedAt := some now
                             txHash := some (gen 0) })
          tb.batchId (fun _ => rfl)
          (beq_eq_false_iff_ne.mpr (Ne.symm hne)) _).trans h1b)
    refine ⟨rfl, rfl, ?_, h3b⟩
    refine Eq.trans (findTx_updRows_neg _ _ _ ?_ ?_ _) ?_
    · exact fun _ => rfl
    · exact beq_eq_false_iff_ne.mpr hne
    · exact h2a

/-- Witness for C2 on the concrete two-row store: first update throws,
second succeeds; records split into one failed and one completed, and
the call succeeds carrying the first generated hash. -/
theorem executeBatch_one_fail_one_success_witness :
    (c2A.batchId ≠ c2B.batchId)
    ∧ findTx [c2A, c2B] c2A.batchId = some c2A
    ∧ findTx [c2A, c2B] c2B.batchId = some c2B
    ∧ c2upd 0 = Except.error "boom"
    ∧ c2upd 1 = Except.ok ()
    ∧ ((executeBatch c2gen c2upd [c2A, c2B] 5 [c2A, c2B] none).result.success
          = true
       ∧ (executeBatch c2gen c2upd [c2A, c2B] 5 [c2A, c2B] none).result.txHash
          = some (c2gen 0)
       ∧ findTx (executeBatch c2gen c2upd [c2A, c2B] 5 [c2A, c2B] none).txs
            c2A.batchId
          = some { c2A with status := TxStatus.failed
                            errorMessage := some "boom" }
       ∧ findTx (executeBatch c2gen c2upd [c2A, c2B] 5 [c2A, c2B] none).txs
            c2B.batchId
          = some { c2B with status := TxStatus.completed
                            executedAt := some 5
                            txHash := some (c2gen 1) }) :=
  ⟨by decide, rfl, rfl, rfl, rfl,
   (executeBatch_one_fail_one_success c2gen c2upd 5 [c2A, c2B] none
      c2A c2B c2A c2B "boom" (by decide) rfl rfl).1 ⟨rfl, rfl⟩⟩

/-! ### Grouping lemmas for `optimizeBatch` -/

/-- Keys of the map after inserting a transaction: unchanged when its
key is already present, else the key is appended. -/
theorem insertGrouped_keys (t : BatchTransaction) :
    ∀ (m : List (String × List BatchTransaction)),
      (insertGrouped m t).map Prod.fst =
        if txKey t ∈ m.map Prod.fst then m.map Prod.fst
        else m.map Prod.fst ++ [txKey t] := by
  intro m
  induction m with
  | nil => simp [insertGrouped]
  | cons q rest ih =>
    obtain ⟨k, g⟩ := q
    by_cases hk : k = txKey t
    · subst hk
      simp [insertGrouped]
    · have hk2 : ¬ txKey t = k := fun h => hk h.symm
      by_cases hm : txKey t ∈ rest.map Prod.fst
      · simp [insertGrouped, hk, ih, hm, hk2]
      · simp [insertGrouped, hk, ih, hm, hk2]

/-- Every entry of the map after an insertion is an untouched entry
with a different key, the extended entry of the inserted key, or the
fresh singleton entry. -/
theorem insertGrouped_entry_cases (t : BatchTransaction) :
    ∀ (m : List (String × List BatchTransaction)),
      (m.map Prod.fst).Nodup →
      ∀ p ∈ insertGrouped m t,
        (p ∈ m ∧ p.1 ≠ txKey t)
        ∨ (∃ g, (txKey t, g) ∈ m ∧ p = (txKey t, g ++ [t]))
        ∨ (txKey t ∉ m.map Prod.fst ∧ p = (txKey t, [t])) := by
  intro m
  induction m with
  | nil =>
    intro _ p hp
    simp only [insertGrouped, List.mem_singleton] at hp
    exact Or.inr (Or.inr ⟨by simp, hp⟩)
  | cons q rest ih =>
    intro hnd p hp
    obtain ⟨k, g⟩ := q
    have hndc : k ∉ rest.map Prod.fst ∧ (rest.map Prod.fst).Nodup := by
      rw [List.map_cons] at hnd
      exact List.nodup_cons.mp hnd
    rw [insertGrouped] at hp
    by_cases hk : k = txKey t
    · subst hk
      rw [if_pos rfl] at hp
      rcases List.mem_cons.mp hp with hph | hpt
      · exact Or.inr (Or.inl ⟨g, List.mem_cons_self _ _, hph⟩)
      · refine Or.inl ⟨List.mem_cons_of_mem _ hpt, ?_⟩
        intro hpk
        exact hndc.1 (hpk ▸ List.mem_map_of_mem Prod.fst hpt)
    · rw [if_neg hk] at hp
      rcases List.mem_cons.mp hp with hph | hpt
      · subst hph
        exact Or.inl ⟨List.mem_cons_self _ _, fun h => hk h⟩
      · rcases ih hndc.2 p hpt with ⟨hm, hne⟩ | ⟨g2, hg2, hpe⟩ | ⟨hnm, hpe⟩
        · exact Or.inl ⟨List.mem_cons_of_mem _ hm, hne⟩
        · exact Or.inr (Or.inl ⟨g2, List.mem_cons_of_mem _ hg2, hpe⟩)
        · refine Or.inr (Or.inr ⟨?_, hpe⟩)
          simp only [List.map_cons, List.mem_cons]
          rintro (h1 | h2)
          · exact hk h1.symm
          · exact hnm h2

/-- Invariant of the grouping map of `optimizeBatch`: keys are
pairwise distinct, every entry is exactly the in-order filter of the
input by its key, every input transaction's key occurs, and every key
is witnessed by an input transaction. -/
theorem groupByKey_inv (txs : List BatchTransaction) :
    ((groupByKey txs).map Prod.fst).Nodup
    ∧ (∀ p ∈ groupByKey txs,
        p.2 = txs.filter (fun u => txKey u == p.1))
    ∧ (∀ t ∈ txs, txKey t ∈ (groupByKey txs).map Prod.fst)
    ∧ (∀ k ∈ (groupByKey txs).map Prod.fst, ∃ t ∈ txs, txKey t = k) := by
  induction txs using List.reverseRecOn with
  | nil => simp [groupByKey]
  | append_singleton l t ih =>
    obtain ⟨ihnd, ihent, ihcompl, ihwit⟩ := ih
    have hstep : groupByKey (l ++ [t]) = insertGrouped (groupByKey l) t := by
      simp [groupByKey, List.foldl_append]
    rw [hstep]
    refine ⟨?_, ?_, ?_, ?_⟩
    · rw [insertGrouped_keys]
      by_cases hm : txKey t ∈ (groupByKey l).map Prod.fst
      · rw [if_pos hm]; exact ihnd
      · rw [if_neg hm]
        refine List.Nodup.append ihnd (List.nodup_singleton _) ?_
        intro a ha hat
        rw [List.mem_singleton] at hat
        exact hm (hat ▸ ha)
    · intro p hp
      rcases insertGrouped_entry_cases t (groupByKey l) ihnd p hp with
        ⟨hm, hne⟩ | ⟨g, hg, hpe⟩ | ⟨hnm, hpe⟩
      · rw [ihent p hm, List.filter_append]
        have hsing : [t].filter (fun u => txKey u == p.1) = [] := by
          simp only [List.filter_eq_nil_iff, List.mem_singleton]
          intro a ha
          subst ha
          simp only [beq_iff_eq]
          exact fun h => hne h.symm
        rw [hsing, List.append_nil]
      · subst hpe
        have hgf := ihent (txKey t, g) hg
        simp only at hgf ⊢
        rw [List.filter_append, ← hgf]
        simp
      · subst hpe
        simp only
        rw [List.filter_append]
        have h1 : l.filter (fun u => txKey u == txKey t) = [] := by
          simp only [List.filter_eq_nil_iff, beq_iff_eq]
          intro u hu he
          exact hnm (he ▸ ihcompl u hu)
        rw [h1]
        simp
    · intro u hu
      rw [insertGrouped_keys]
      rcases List.mem_append.mp hu with hul | hut
      · by_cases hm : txKey t ∈ (groupByKey l).map Prod.fst
        · rw [if_pos hm]; exact ihcompl u hul
        · rw [if_neg hm]; exact List.mem_append_left _ (ihcompl u hul)
      · rw [List.mem_singleton] at hut
        subst hut
        by_cases hm : txKey u ∈ (groupByKey l).map Prod.fst
        · rw [if_pos hm]; exact hm
        · rw [if_neg hm]; exact List.mem_append_right _ (by simp)
    · intro k hk
      rw [insertGrouped_keys] at hk
      by_cases hm : txKey t ∈ (groupByKey l).map Prod.fst
      · rw [if_pos hm] at hk
        obtain ⟨u, hu, he⟩ := ihwit k hk
        exact ⟨u, List.mem_append_left _ hu, he⟩
      · rw [if_neg hm] at hk
        rcases List.mem_append.mp hk with h1 | h2
        · obtain ⟨u, hu, he⟩ := ihwit k h1
          exact ⟨u, List.mem_append_left _ hu, he⟩
        · rw [List.mem_singleton] at h2
          subst h2
          exact ⟨t, List.mem_append_right _ (by simp), rfl⟩

/-- C5 (amended).  `optimizeBatch` partitions its input by the derived
string key `recipient ++ "_" ++ (tokenAddress if nonempty else
"native")`: every output group is precisely the in-order filter of the
input sharing one key, every input transaction lands in a group, the
groups are pairwise disjoint (each transaction is in exactly one), and
the groups are ordered by descending summed amount, the relative order
of equal-sum groups unconstrained. -/
theorem optimizeBatch_partition_sorted (txs : List BatchTransaction) :
    (∀ g ∈ optimizeBatch txs, ∃ t0 ∈ txs,
        g = txs.filter (fun u => txKey u == txKey t0))
    ∧ (∀ t ∈ txs, ∃ g, g ∈ optimizeBatch txs ∧ t ∈ g)
    ∧ (optimizeBatch txs).Pairwise (fun g1 g2 => ∀ t, t ∈ g1 → t ∉ g2)
    ∧ (optimizeBatch txs).Pairwise groupGE := by
  obtain ⟨hnd, hent, hcompl, hwit⟩ := groupByKey_inv txs
  have hperm : List.Perm (optimizeBatch txs) ((groupByKey txs).map Prod.snd) :=
    List.perm_insertionSort groupGE _
  refine ⟨?_, ?_, ?_, ?_⟩
  · intro g hg
    have hg2 : g ∈ (groupByKey txs).map Prod.snd := hperm.mem_iff.mp hg
    obtain ⟨p, hp, he⟩ := List.mem_map.mp hg2
    obtain ⟨t0, ht0, hk0⟩ := hwit p.1 (List.mem_map_of_mem Prod.fst hp)
    refine ⟨t0, ht0, ?_⟩
    rw [← he, hent p hp, hk0]
  · intro t ht
    obtain ⟨p, hp, hpe⟩ := List.mem_map.mp (hcompl t ht)
    refine ⟨p.2, hperm.mem_iff.mpr (List.mem_map_of_mem Prod.snd hp), ?_⟩
    rw [hent p hp, List.mem_filter]
    refine ⟨ht, ?_⟩
    rw [hpe]
    simp
  · have hnd2 : (groupByKey txs).Pairwise (fun p q => p.1 ≠ q.1) :=
      (List.pairwise_map).mp hnd
    have hpair : ((groupByKey txs).map Prod.snd).Pairwise
        (fun g1 g2 => ∀ t, t ∈ g1 → t ∉ g2) := by
      rw [List.pairwise_map]
      refine hnd2.imp_of_mem ?_
      intro p q hp hq hne t htp htq
      rw [hent p hp, List.mem_filter] at htp
      rw [hent q hq, List.mem_filter] at htq
      have h1 : txKey t = p.1 := by
        have := htp.2
        rwa [beq_iff_eq] at this
      have h2 : txKey t = q.1 := by
        have := htq.2
        rwa [beq_iff_eq] at this
      exact hne (h1 ▸ h2)
    refine (hperm.pairwise_iff ?_).mpr hpair
    intro x y h t hty htx
    exact h t htx hty
  · exact List.sorted_insertionSort groupGE ((groupByKey txs).map Prod.snd)

/-- C5 (counterexample).  The grouping key is a string concatenation,
not the pair: a recipient containing an underscore collides with a
different recipient whose token id completes the same string, so the
two transactions land in one group although they do not share a
recipient — refuting the claim that every group holds precisely the
transactions sharing the member's recipient and token. -/
theorem optimizeBatch_pair_key_counterexample :
    optimizeBatch [c5u, c5v] = [[c5u, c5v]]
    ∧ c5u.toAddress ≠ c5v.toAddress :=
  ⟨rfl, by decide⟩
